import Mathlib

/-!
Shallow embedding of the `librarylink` launcher/supervisor (src/main.rs).

The program launches a UWP application by AUMID and then supervises the
resulting OS process: it waits for termination and, when the watched process
disappears, searches the process table for a successor whose executable path
lies under the directory of the originally launched process.

OS interactions (OpenProcess, QueryFullProcessImageNameW, EnumProcesses,
WaitForSingleObject, COM initialization, activation, PowerShell fallback) are
modelled as explicit environments supplied to the embedded functions; the
embedded functions reproduce the Rust control flow over those environments.
-/

namespace LibraryLink

/-- Mirrors the Rust struct `ProcessInfo { name: String, path: String }`. -/
structure ProcessInfo where
  name : String
  path : String
deriving DecidableEq, Repr

/-- Outcome of `QueryFullProcessImageNameW` on an opened process handle:
whether the call succeeded (`result.is_ok()`), the `size` it reported, and
the UTF-16 decoding of the filled buffer slice. -/
structure ProcQuery where
  queryOk : Bool
  size : Nat
  decoded : String
deriving DecidableEq, Repr

/-- The per-pid view the OS offers to `get_process_info`: `none` when
`OpenProcess(PROCESS_QUERY_LIMITED_INFORMATION, ..)` fails for that pid,
otherwise the result of the image-name query on the opened handle. -/
def ProcTable : Type := Nat → Option ProcQuery

/-- The backslash path separator used throughout the Rust code. -/
def sepChar : Char := '\\'

/-- Mirrors Rust `path.split('\\')`: splits a character list at every
occurrence of `sep`; always returns a non-empty list of segments. -/
def splitChar (sep : Char) : List Char → List (List Char)
  | [] => [[]]
  | c :: rest =>
    let r := splitChar sep rest
    if c = sep then [] :: r
    else
      match r with
      | [] => [[c]]
      | h :: t => (c :: h) :: t

/-- Mirrors Rust `String::to_lowercase` on the character sequence
(ASCII-relevant case mapping, which is all Windows drive paths need). -/
def to_lowercase (s : String) : String :=
  String.mk (s.toList.map Char.toLower)

/-- Mirrors Rust `str::starts_with(&str)`: the needle's character sequence
is a prefix of the haystack's. -/
def starts_with (s needle : String) : Bool :=
  List.isPrefixOf needle.toList s.toList

/-- Mirrors Rust `str::rfind(char)`: the index of the last occurrence of
`sep`, or `none` when `sep` does not occur. -/
def rfindIdx (sep : Char) : List Char → Option Nat
  | [] => none
  | c :: rest =>
    match rfindIdx sep rest with
    | some i => some (i + 1)
    | none => if c = sep then some 0 else none

/-- Embeds `get_process_info` (main.rs:385-420).  Opens the process with
query-limited access (`os process_id = none` models open failure and yields
`None`); on success the path is the decoded image name when the query
succeeded with `size > 0` and the sentinel `"<Unknown>"` otherwise, and the
name is the segment after the last backslash, via
`path.split('\\').next_back().unwrap_or(&path)`. -/
def get_process_info (os : ProcTable) (process_id : Nat) : Option ProcessInfo :=
  match os process_id with
  | none => none
  | some q =>
    let path : String :=
      if q.queryOk && decide (0 < q.size) then q.decoded else "<Unknown>"
    let name : String :=
      String.mk (List.getLastD (splitChar sepChar path.toList) path.toList)
    some { name := name, path := path }

/-- Embeds `get_directory_from_path` (main.rs:422-429): the prefix before the
last backslash, or the whole path when there is none. -/
def get_directory_from_path (path : String) : String :=
  match rfindIdx sepChar path.toList with
  | some last_slash => String.mk (path.toList.take last_slash)
  | none => path

/-- Environment for one call to `find_process_in_directory`: whether
`EnumProcesses` succeeds, the pid list the OS would report (the 1024-entry
buffer keeps only the first 1024), and the per-pid process table. -/
structure LocEnv where
  enumOk : Bool
  osPids : List Nat
  procs : ProcTable

/-- The `for` loop of `find_process_in_directory` (main.rs:567-582): first
pid in order that is nonzero, resolves, and whose lowercased path starts
with the lowercased target; `none` after the full traversal. -/
def findLoop (procs : ProcTable) (lowercase_target : String) : List Nat → Option Nat
  | [] => none
  | process_id :: rest =>
    if process_id = 0 then findLoop procs lowercase_target rest
    else
      match get_process_info procs process_id with
      | some process_info =>
        if starts_with (to_lowercase process_info.path) lowercase_target then
          some process_id
        else findLoop procs lowercase_target rest
      | none => findLoop procs lowercase_target rest

/-- Embeds `find_process_in_directory` (main.rs:547-585): returns `none`
when `EnumProcesses` fails, otherwise scans at most 1024 enumerated pids
for the first match against the lowercased target directory. -/
def find_process_in_directory (env : LocEnv) (target_directory : String) : Option Nat :=
  if env.enumOk = false then none
  else findLoop env.procs (to_lowercase target_directory) (env.osPids.take 1024)

/-- The supervision states of the spec's state machine: `Monitoring pid`
while a process is watched, `SearchingSuccessor` transiently during a
locator call, `Stopped` when the loop has exited. -/
inductive SupervisionState where
  | Monitoring (pid : Nat)
  | SearchingSuccessor
  | Stopped
deriving DecidableEq, Repr

/-- Value of the Win32 constant `WAIT_OBJECT_0`. -/
def WAIT_OBJECT_0 : Nat := 0

/-- Value of the Win32 constant `WAIT_FAILED` (`0xFFFFFFFF`). -/
def WAIT_FAILED : Nat := 4294967295

/-- Outcome the OS gives one iteration of the monitor loop for the open and
wait on the current pid: `failed` when `OpenProcess(PROCESS_SYNCHRONIZE, ..)`
fails, otherwise the numeric code `WaitForSingleObject` returned. -/
inductive OpenWait where
  | failed
  | ok (waitResult : Nat)
deriving DecidableEq, Repr

/-- The OS responses consumed by one iteration of `monitor_process`: the
open/wait outcome, and the locator environment in effect should this
iteration search for a successor. -/
structure IterEvent where
  openWait : OpenWait
  locator : LocEnv

/-- The successor search shared by the three escalating branches of
`monitor_process` (main.rs:448-465, 491-507, 519-535): adopt the pid the
locator returns, or stop when it returns nothing.  The second component
logs the directory the locator was queried with. -/
def searchSuccessor (env : LocEnv) (target_directory : String) :
    SupervisionState × List String :=
  (match find_process_in_directory env target_directory with
   | some new_process_id => SupervisionState.Monitoring new_process_id
   | none => SupervisionState.Stopped,
   [target_directory])

/-- One iteration of the `monitor_process` loop body (main.rs:432-544):
an open failure, a `WAIT_OBJECT_0` wait result, or a `WAIT_FAILED` wait
result each trigger a successor search; any other wait result logs and
keeps monitoring the same pid. -/
def monitorIter (target_directory : String) (pid : Nat) (e : IterEvent) :
    SupervisionState × List String :=
  match e.openWait with
  | OpenWait.failed => searchSuccessor e.locator target_directory
  | OpenWait.ok w =>
    if w = WAIT_OBJECT_0 then searchSuccessor e.locator target_directory
    else if w = WAIT_FAILED then searchSuccessor e.locator target_directory
    else (SupervisionState.Monitoring pid, [])

/-- Embeds the `monitor_process` loop (main.rs:431-545) over a finite trace
of per-iteration OS responses.  An exhausted trace leaves the loop still
monitoring; a `Stopped` iteration ends it.  The second component collects
the directory argument of every locator call made. -/
def monitor_process (target_directory : String) :
    List IterEvent → Nat → SupervisionState × List String
  | [], current_process_id =>
    (SupervisionState.Monitoring current_process_id, [])
  | e :: rest, current_process_id =>
    match monitorIter target_directory current_process_id e with
    | (SupervisionState.Monitoring pid2, log) =>
      let r := monitor_process target_directory rest pid2
      (r.1, log ++ r.2)
    | (s, log) => (s, log)

/-- Environment for `launch_app_with_activation_manager`: whether
`CoInitializeEx` succeeds, the result of `CoCreateInstance` for the
activation manager, and the result of `ActivateApplication`. -/
structure ActivationEnv where
  coInitOk : Bool
  createManager : Except String Unit
  activate : Except String Nat

/-- Embeds `launch_app_with_activation_manager` (main.rs:330-364) with the
COM initialization depth threaded explicitly: `CoInitializeEx` increments
it, `CoUninitialize` decrements it.  The Rust code uninitializes in the
`map_err` of manager creation and, on the remaining paths, right after
`ActivateApplication` returns, before inspecting its result. -/
def launch_app_with_activation_manager (env : ActivationEnv) (comDepth : Nat) :
    Except String Nat × Nat :=
  if env.coInitOk = false then
    (Except.error "Failed to initialize COM", comDepth)
  else
    let d1 := comDepth + 1
    match env.createManager with
    | Except.error e =>
      (Except.error ("Failed to create ApplicationActivationManager: " ++ e), d1 - 1)
    | Except.ok _ =>
      let result := env.activate
      let d2 := d1 - 1
      match result with
      | Except.ok process_id => (Except.ok process_id, d2)
      | Except.error e =>
        (Except.error ("Failed to activate application: " ++ e), d2)

/-- Environment for the launch-and-supervise portion of `launch_uwp_app`:
the activation environment, the result of the PowerShell
`launch_app_with_shell_execute` fallback, the process table consulted right
after launch, and the trace of OS responses feeding the monitor loop. -/
structure LaunchEnv where
  act : ActivationEnv
  shell : Except String Unit
  procs : ProcTable
  trace : List IterEvent

/-- Result of the launch-and-supervise portion of `launch_uwp_app`:
supervision ran (with the adopted target directory and the monitor run's
outcome), the launched pid could not be resolved so no supervision started,
the fallback launch succeeded with no pid, or both launch methods failed. -/
inductive LaunchResult where
  | monitored (pid : Nat) (dir : String) (run : SupervisionState × List String)
  | noMonitorInfo (pid : Nat)
  | fallbackOk
  | bothFailed (primaryErr fallbackErr : String)

/-- Embeds the launch-and-supervise portion of `launch_uwp_app`
(main.rs:275-317): on activation success, supervision starts only when
`get_process_info` resolves the new pid, with the target directory derived
from that first process's path; on activation failure the shell fallback is
tried, which never starts supervision. -/
def launch_uwp_app_core (env : LaunchEnv) : LaunchResult :=
  match (launch_app_with_activation_manager env.act 0).1 with
  | Except.ok process_id =>
    match get_process_info env.procs process_id with
    | some process_info =>
      let process_dir := get_directory_from_path process_info.path
      LaunchResult.monitored process_id process_dir
        (monitor_process process_dir env.trace process_id)
    | none => LaunchResult.noMonitorInfo process_id
  | Except.error e =>
    match env.shell with
    | Except.ok _ => LaunchResult.fallbackOk
    | Except.error e2 => LaunchResult.bothFailed e e2

/-! Spec-side definitions, written from the spec's words, used to state the
claims against the embedded code. -/

/-- Spec-side (from the spec's words): the path segment after the last
directory separator; when no separator exists, the whole path. -/
def finalSegment (path : String) : String :=
  match rfindIdx sepChar path.toList with
  | some i => String.mk (path.toList.drop (i + 1))
  | none => path

/-- Spec-side (from the spec's words): a pid matches the directory-scoped
search when it is not the identifier 0, it resolves to a `ProcessInfo`
rather than Absent, and its resolved path case-insensitively starts with
the target directory. -/
def matchesDirectory (procs : ProcTable) (target_directory : String) (pid : Nat) : Bool :=
  decide (pid ≠ 0) &&
    match get_process_info procs pid with
    | some info => starts_with (to_lowercase info.path) (to_lowercase target_directory)
    | none => false

/-- Whether a launch outcome entered the supervision loop. -/
def isMonitored : LaunchResult → Bool
  | LaunchResult.monitored _ _ _ => true
  | _ => false

/-- Whether an iteration's open/wait outcome sends the monitor loop into a
successor search: an open failure, a termination signal, or a wait failure. -/
def triggersSearch (e : IterEvent) : Bool :=
  match e.openWait with
  | OpenWait.failed => true
  | OpenWait.ok w => decide (w = WAIT_OBJECT_0) || decide (w = WAIT_FAILED)

/-! Helper lemmas about the monitor loop. -/

/-- An iteration ends in `Stopped` only when it triggered a successor search
and the locator found nothing. -/
theorem monitorIter_stopped (target : String) (pid : Nat) (e : IterEvent)
    (h : (monitorIter target pid e).1 = SupervisionState.Stopped) :
    triggersSearch e = true ∧
      find_process_in_directory e.locator target = none := by
  cases e with
  | mk ow loc =>
    cases ow with
    | failed =>
      refine ⟨rfl, ?_⟩
      cases hf : find_process_in_directory loc target with
      | none => rfl
      | some p => simp [monitorIter, searchSuccessor, hf] at h
    | ok w =>
      by_cases h0 : w = WAIT_OBJECT_0
      · refine ⟨by simp [triggersSearch, h0], ?_⟩
        cases hf : find_process_in_directory loc target with
        | none => rfl
        | some p => simp [monitorIter, searchSuccessor, h0, hf] at h
      · by_cases h1 : w = WAIT_FAILED
        · refine ⟨by simp [triggersSearch, h1], ?_⟩
          cases hf : find_process_in_directory loc target with
          | none => rfl
          | some p => simp [monitorIter, searchSuccessor, h0, h1, hf] at h
        · simp [monitorIter, h0, h1] at h

/-- An iteration never rests in the transient `SearchingSuccessor` state. -/
theorem monitorIter_ne_searching (target : String) (pid : Nat) (e : IterEvent) :
    (monitorIter target pid e).1 ≠ SupervisionState.SearchingSuccessor := by
  cases e with
  | mk ow loc =>
    cases ow with
    | failed =>
      cases hf : find_process_in_directory loc target <;>
        simp [monitorIter, searchSuccessor, hf]
    | ok w =>
      by_cases h0 : w = WAIT_OBJECT_0 <;> by_cases h1 : w = WAIT_FAILED <;>
        cases hf : find_process_in_directory loc target <;>
          simp [monitorIter, searchSuccessor, h0, h1, hf]

/-- Every directory a monitor run hands to the locator is the fixed target. -/
theorem monitor_log_eq_target (target : String) (trace : List IterEvent) (pid : Nat) :
    ∀ q ∈ (monitor_process target trace pid).2, q = target := by
  induction trace generalizing pid with
  | nil => simp [monitor_process]
  | cons e rest ih =>
    have hiter : ∀ q ∈ (monitorIter target pid e).2, q = target := by
      cases e with
      | mk ow loc =>
        cases ow with
        | failed => simp [monitorIter, searchSuccessor]
        | ok w =>
          by_cases h0 : w = WAIT_OBJECT_0 <;> by_cases h1 : w = WAIT_FAILED <;>
            simp [monitorIter, searchSuccessor, h0, h1]
    intro q hq
    cases hit : monitorIter target pid e with
    | mk s log =>
      cases s with
      | Monitoring pid2 =>
        simp [monitor_process, hit] at hq
        rcases hq with hql | hqr
        · exact hiter q (by simp [hit, hql])
        · exact ih pid2 q hqr
      | SearchingSuccessor =>
        simp [monitor_process, hit] at hq
        exact hiter q (by simp [hit, hq])
      | Stopped =>
        simp [monitor_process, hit] at hq
        exact hiter q (by simp [hit, hq])

/-- Claim C1: the supervision loop reaches `Stopped` only through an
iteration that triggered a successor search (open failure, termination,
or wait failure) on which the locator returned nothing; no single failed
operation by itself ends the loop. -/
theorem monitor_stops_only_on_locator_notFound (target : String)
    (trace : List IterEvent) (pid : Nat)
    (h : (monitor_process target trace pid).1 = SupervisionState.Stopped) :
    ∃ e ∈ trace, triggersSearch e = true ∧
      find_process_in_directory e.locator target = none := by
  induction trace generalizing pid with
  | nil => simp [monitor_process] at h
  | cons e rest ih =>
    cases hit : monitorIter target pid e with
    | mk s log =>
      cases s with
      | Monitoring pid2 =>
        have h2 : (monitor_process target rest pid2).1 = SupervisionState.Stopped := by
          simp [monitor_process, hit] at h
          exact h
        obtain ⟨e2, he2, hts, hf⟩ := ih pid2 h2
        exact ⟨e2, List.mem_cons_of_mem _ he2, hts, hf⟩
      | SearchingSuccessor =>
        exact absurd (by rw [hit]) (monitorIter_ne_searching target pid e)
      | Stopped =>
        have hst := monitorIter_stopped target pid e (by rw [hit])
        exact ⟨e, List.mem_cons_self _ _, hst.1, hst.2⟩

/-- Trace used to witness C1: one iteration whose wait signals termination
and whose locator environment has a failing enumeration, so the search
finds nothing and the loop stops. -/
def stoppingTrace : List IterEvent :=
  [⟨OpenWait.ok 0, ⟨false, [], fun _ => none⟩⟩]

/-- Witness for C1 at a concrete trace that reaches `Stopped`. -/
theorem monitor_stops_only_on_locator_notFound_witness :
    ∃ e ∈ stoppingTrace, triggersSearch e = true ∧
      find_process_in_directory e.locator "c:\\apps" = none :=
  monitor_stops_only_on_locator_notFound "c:\\apps" stoppingTrace 4 rfl

/-- Claim C4: throughout one supervision session, every successor search
uses the same target directory, derived once from the first monitored
process's executable path; it is never recomputed from a later-adopted
successor's path. -/
theorem targetDirectory_fixed (env : LaunchEnv) (pid : Nat) (info : ProcessInfo)
    (hact : (launch_app_with_activation_manager env.act 0).1 = Except.ok pid)
    (hinfo : get_process_info env.procs pid = some info) :
    launch_uwp_app_core env =
      LaunchResult.monitored pid (get_directory_from_path info.path)
        (monitor_process (get_directory_from_path info.path) env.trace pid) ∧
    ∀ q ∈ (monitor_process (get_directory_from_path info.path) env.trace pid).2,
      q = get_directory_from_path info.path := by
  exact ⟨by simp [launch_uwp_app_core, hact, hinfo], monitor_log_eq_target _ _ _⟩

/-- A launch environment whose activation succeeds with pid 4, whose process
table resolves pid 4 (and the successor pid 9), and whose monitor trace sees
one termination followed by a successor adoption and an exhausted search. -/
def launchEnvA : LaunchEnv :=
  { act := { coInitOk := true, createManager := Except.ok (), activate := Except.ok 4 }
    shell := Except.ok ()
    procs := fun p =>
      if p = 4 then some { queryOk := true, size := 20, decoded := "C:\\Apps\\Foo\\foo.exe" }
      else none
    trace :=
      [⟨OpenWait.ok 0,
        { enumOk := true, osPids := [0, 9],
          procs := fun p =>
            if p = 9 then
              some { queryOk := true, size := 27, decoded := "c:\\apps\\foo\\foo-worker.exe" }
            else none }⟩,
       ⟨OpenWait.ok 0, { enumOk := true, osPids := [], procs := fun _ => none }⟩] }

/-- The `ProcessInfo` the resolver yields for pid 4 under `launchEnvA`. -/
def infoA : ProcessInfo := { name := "foo.exe", path := "C:\\Apps\\Foo\\foo.exe" }

/-- Witness for C4 at the concrete environment `launchEnvA`. -/
theorem targetDirectory_fixed_witness :
    launch_uwp_app_core launchEnvA =
      LaunchResult.monitored 4 (get_directory_from_path infoA.path)
        (monitor_process (get_directory_from_path infoA.path) launchEnvA.trace 4) ∧
    ∀ q ∈ (monitor_process (get_directory_from_path infoA.path) launchEnvA.trace 4).2,
      q = get_directory_from_path infoA.path :=
  targetDirectory_fixed launchEnvA 4 infoA rfl rfl

/-- Claim C5: an unexpected wait status (neither `WAIT_OBJECT_0` nor
`WAIT_FAILED`) keeps the supervisor monitoring the same pid with no
successor search, and the loop simply re-enters the wait. -/
theorem unexpected_wait_keeps_monitoring (target : String) (pid : Nat)
    (env : LocEnv) (rest : List IterEvent) (w : Nat)
    (h0 : w ≠ WAIT_OBJECT_0) (h1 : w ≠ WAIT_FAILED) :
    monitorIter target pid ⟨OpenWait.ok w, env⟩ =
      (SupervisionState.Monitoring pid, []) ∧
    monitor_process target (⟨OpenWait.ok w, env⟩ :: rest) pid =
      monitor_process target rest pid := by
  have hi : monitorIter target pid ⟨OpenWait.ok w, env⟩ =
      (SupervisionState.Monitoring pid, []) := by
    simp [monitorIter, h0, h1]
  exact ⟨hi, by simp [monitor_process, hi]⟩

/-- Witness for C5 at the `WAIT_TIMEOUT` status code 258. -/
theorem unexpected_wait_keeps_monitoring_witness :
    monitorIter "c:\\apps" 4 ⟨OpenWait.ok 258, ⟨true, [], fun _ => none⟩⟩ =
      (SupervisionState.Monitoring 4, []) ∧
    monitor_process "c:\\apps" [⟨OpenWait.ok 258, ⟨true, [], fun _ => none⟩⟩] 4 =
      monitor_process "c:\\apps" [] 4 :=
  unexpected_wait_keeps_monitoring "c:\\apps" 4 ⟨true, [], fun _ => none⟩ []
    258 (by decide) (by decide)

/-- Claim C7: on every exit path of the activation-manager launch on which
COM was successfully initialized — manager-creation failure, activation
failure, or activation success — COM is uninitialized before the operation
returns, so the COM depth is restored. -/
theorem com_uninitialized_on_every_exit (env : ActivationEnv) (comDepth : Nat)
    (h : env.coInitOk = true) :
    (launch_app_with_activation_manager env comDepth).2 = comDepth := by
  cases hc : env.createManager with
  | error e => simp [launch_app_with_activation_manager, h, hc]
  | ok u =>
    cases ha : env.activate <;>
      simp [launch_app_with_activation_manager, h, hc, ha]

/-- Witness for C7 on the activation-success exit path. -/
theorem com_uninitialized_on_every_exit_witness :
    (launch_app_with_activation_manager
      ⟨true, Except.ok (), Except.ok 42⟩ 0).2 = 0 :=
  com_uninitialized_on_every_exit ⟨true, Except.ok (), Except.ok 42⟩ 0 rfl

/-- Claim C8: the resolver is total and returns `none` (Absent) exactly when
opening the process with query-limited access fails; in every other case it
yields a `ProcessInfo`, and no other error is ever produced. -/
theorem resolve_absent_iff_open_fails (os : ProcTable) (pid : Nat) :
    get_process_info os pid = none ↔ os pid = none := by
  cases h : os pid <;> simp [get_process_info, h]

/-- Claim C10: when `EnumProcesses` itself fails, the locator returns
`none`, indistinguishable from a successful enumeration with no match, so
a searching supervisor transitions to `Stopped`. -/
theorem enum_failure_reads_as_notFound (env : LocEnv) (d : String) (pid : Nat)
    (h : env.enumOk = false) :
    find_process_in_directory env d = none ∧
    (monitorIter d pid ⟨OpenWait.ok WAIT_OBJECT_0, env⟩).1 =
      SupervisionState.Stopped := by
  have hf : find_process_in_directory env d = none := by
    simp [find_process_in_directory, h]
  exact ⟨hf, by simp [monitorIter, searchSuccessor, hf]⟩

/-- Witness for C10 at a concrete failing-enumeration environment that does
contain a matching process. -/
theorem enum_failure_reads_as_notFound_witness :
    find_process_in_directory
      ⟨false, [9], fun _ => some ⟨true, 14, "c:\\apps\\x.exe"⟩⟩ "c:\\apps" = none ∧
    (monitorIter "c:\\apps" 4
      ⟨OpenWait.ok WAIT_OBJECT_0,
        ⟨false, [9], fun _ => some ⟨true, 14, "c:\\apps\\x.exe"⟩⟩⟩).1 =
      SupervisionState.Stopped :=
  enum_failure_reads_as_notFound
    ⟨false, [9], fun _ => some ⟨true, 14, "c:\\apps\\x.exe"⟩⟩ "c:\\apps" 4 rfl

/-- A launch environment whose primary activation succeeds with pid 5 but
whose process table cannot resolve pid 5 (the open fails). -/
def launchEnvNoInfo : LaunchEnv :=
  { act := { coInitOk := true, createManager := Except.ok (), activate := Except.ok 5 }
    shell := Except.ok ()
    procs := fun _ => none
    trace := [] }

/-- Counterexample to C2 as stated: the primary activation succeeds and
yields pid 5, yet the supervisor does not enter `Monitoring 5` — because
`get_process_info` fails, `launch_uwp_app_core` returns `noMonitorInfo`
and no supervision loop is started. -/
theorem launch_success_without_resolve_no_monitoring :
    (launch_app_with_activation_manager launchEnvNoInfo.act 0).1 = Except.ok 5 ∧
    launch_uwp_app_core launchEnvNoInfo = LaunchResult.noMonitorInfo 5 ∧
    isMonitored (launch_uwp_app_core launchEnvNoInfo) = false :=
  ⟨rfl, rfl, rfl⟩

/-- Claim C2 as amended: when the primary activation succeeds with a pid and
the metadata resolver yields a `ProcessInfo` for that pid, the supervisor
immediately enters the supervision loop monitoring that pid. -/
theorem launch_success_starts_monitoring (env : LaunchEnv) (pid : Nat)
    (info : ProcessInfo)
    (hact : (launch_app_with_activation_manager env.act 0).1 = Except.ok pid)
    (hinfo : get_process_info env.procs pid = some info) :
    launch_uwp_app_core env =
      LaunchResult.monitored pid (get_directory_from_path info.path)
        (monitor_process (get_directory_from_path info.path) env.trace pid) ∧
    isMonitored (launch_uwp_app_core env) = true := by
  have hm : launch_uwp_app_core env =
      LaunchResult.monitored pid (get_directory_from_path info.path)
        (monitor_process (get_directory_from_path info.path) env.trace pid) := by
    simp [launch_uwp_app_core, hact, hinfo]
  exact ⟨hm, by rw [hm]; rfl⟩

/-- Witness for the amended C2 at the concrete environment `launchEnvA`. -/
theorem launch_success_starts_monitoring_witness :
    launch_uwp_app_core launchEnvA =
      LaunchResult.monitored 4 (get_directory_from_path infoA.path)
        (monitor_process (get_directory_from_path infoA.path) launchEnvA.trace 4) ∧
    isMonitored (launch_uwp_app_core launchEnvA) = true :=
  launch_success_starts_monitoring launchEnvA 4 infoA rfl rfl

/-- Claim C6: a launch has exactly three outcomes — primary activation
succeeded with a pid, fallback shell launch succeeded with no pid, or both
mechanisms failed — the supervision loop is entered only in the first, and
a fallback-only success never enters supervision. -/
theorem launch_exactly_three_outcomes (env : LaunchEnv) :
    ((∃ pid, (launch_app_with_activation_manager env.act 0).1 = Except.ok pid) ∨
     ((∃ e, (launch_app_with_activation_manager env.act 0).1 = Except.error e) ∧
       env.shell = Except.ok () ∧
       launch_uwp_app_core env = LaunchResult.fallbackOk) ∨
     (∃ e e2, (launch_app_with_activation_manager env.act 0).1 = Except.error e ∧
       env.shell = Except.error e2 ∧
       launch_uwp_app_core env = LaunchResult.bothFailed e e2)) ∧
    (isMonitored (launch_uwp_app_core env) = true →
      ∃ pid, (launch_app_with_activation_manager env.act 0).1 = Except.ok pid) ∧
    (∀ e, (launch_app_with_activation_manager env.act 0).1 = Except.error e →
      env.shell = Except.ok () →
      isMonitored (launch_uwp_app_core env) = false) := by
  cases hact : (launch_app_with_activation_manager env.act 0).1 with
  | ok pid =>
    refine ⟨Or.inl ⟨pid, rfl⟩, fun _ => ⟨pid, rfl⟩, fun e he => ?_⟩
    exact absurd he (by simp)
  | error e =>
    cases hsh : env.shell with
    | ok u =>
      have hc : launch_uwp_app_core env = LaunchResult.fallbackOk := by
        simp [launch_uwp_app_core, hact, hsh]
      exact ⟨Or.inr (Or.inl ⟨⟨e, rfl⟩, rfl, hc⟩),
        by rw [hc]; intro hfalse; exact absurd hfalse (by simp [isMonitored]),
        fun e2 _ _ => by rw [hc]; rfl⟩
    | error e2 =>
      have hc : launch_uwp_app_core env = LaunchResult.bothFailed e e2 := by
        simp [launch_uwp_app_core, hact, hsh]
      exact ⟨Or.inr (Or.inr ⟨e, e2, rfl, rfl, hc⟩),
        by rw [hc]; intro hfalse; exact absurd hfalse (by simp [isMonitored]),
        fun e3 _ hsh2 => absurd hsh2 (by simp)⟩

/-- A launch environment whose primary activation fails and whose PowerShell
fallback succeeds. -/
def launchEnvFallback : LaunchEnv :=
  { act := { coInitOk := true, createManager := Except.ok ()
             activate := Except.error "denied" }
    shell := Except.ok ()
    procs := fun _ => none
    trace := [] }

/-- Witness for C6: with failed primary and successful fallback, no
supervision loop is entered. -/
theorem launch_exactly_three_outcomes_witness :
    isMonitored (launch_uwp_app_core launchEnvFallback) = false :=
  (launch_exactly_three_outcomes launchEnvFallback).2.2
    "Failed to activate application: denied" rfl rfl

/-- The locator's scan loop is exactly a first-match search with the
spec-side predicate `matchesDirectory`. -/
theorem findLoop_eq_find (procs : ProcTable) (target_directory : String)
    (l : List Nat) :
    findLoop procs (to_lowercase target_directory) l =
      l.find? (matchesDirectory procs target_directory) := by
  induction l with
  | nil => simp [findLoop]
  | cons p rest ih =>
    by_cases hp : p = 0
    · subst hp
      rw [findLoop, if_pos rfl, List.find?_cons_of_neg _ (by simp [matchesDirectory]), ih]
    · cases hg : get_process_info procs p with
      | none =>
        rw [findLoop, if_neg hp,
          List.find?_cons_of_neg _ (by simp [matchesDirectory, hg]), hg, ih]
      | some info =>
        rw [findLoop, if_neg hp]
        simp only [hg]
        by_cases hs : starts_with (to_lowercase info.path) (to_lowercase target_directory)
        · rw [if_pos hs, List.find?_cons_of_pos _ (by simp [matchesDirectory, hg, hp, hs])]
        · rw [if_neg hs, List.find?_cons_of_neg _ (by simp [matchesDirectory, hg, hs]), ih]

/-- Claim C3: on a successful enumeration, `find_process_in_directory`
returns the first pid in enumeration order — among at most 1024 enumerated
entries, skipping pid 0 and pids that resolve to Absent — whose resolved
path case-insensitively starts with the target directory; any pid it
returns matches, and it returns `none` when no enumerated pid matches. -/
theorem find_returns_first_match (env : LocEnv) (target_directory : String) :
    (env.enumOk = true →
      find_process_in_directory env target_directory =
        (env.osPids.take 1024).find? (matchesDirectory env.procs target_directory)) ∧
    (∀ pid, find_process_in_directory env target_directory = some pid →
      matchesDirectory env.procs target_directory pid = true) ∧
    (env.enumOk = true →
      (∀ pid ∈ env.osPids.take 1024,
        matchesDirectory env.procs target_directory pid = false) →
      find_process_in_directory env target_directory = none) := by
  have hfind : env.enumOk = true →
      find_process_in_directory env target_directory =
        (env.osPids.take 1024).find? (matchesDirectory env.procs target_directory) := by
    intro h
    rw [find_process_in_directory, if_neg (by simp [h]), findLoop_eq_find]
  refine ⟨hfind, fun pid hsome => ?_, fun h hnone => ?_⟩
  · cases he : env.enumOk with
    | false =>
      rw [find_process_in_directory, if_pos (by simp [he])] at hsome
      exact absurd hsome (by simp)
    | true =>
      rw [hfind he] at hsome
      exact List.find?_some hsome
  · rw [hfind h, List.find?_eq_none]
    intro x hx
    simp [hnone x hx]

/-- Enumeration environment used to witness C3: pid 0 is skipped, pid 7 is
Absent, pid 9 is the first match, pid 11 also matches but comes later. -/
def locEnvB : LocEnv :=
  { enumOk := true
    osPids := [0, 7, 9, 11]
    procs := fun p =>
      if p = 9 then some { queryOk := true, size := 18, decoded := "c:\\APPS\\Foo\\x.exe" }
      else if p = 11 then some { queryOk := true, size := 14, decoded := "C:\\apps\\y.exe" }
      else none }

/-- Witness for C3 at the concrete environment `locEnvB`: the locator
agrees with the first-match specification and the returned pid matches. -/
theorem find_returns_first_match_witness :
    find_process_in_directory locEnvB "C:\\Apps" =
      (locEnvB.osPids.take 1024).find? (matchesDirectory locEnvB.procs "C:\\Apps") ∧
    matchesDirectory locEnvB.procs "C:\\Apps" 9 = true :=
  ⟨(find_returns_first_match locEnvB "C:\\Apps").1 rfl,
   (find_returns_first_match locEnvB "C:\\Apps").2.1 9 rfl⟩

/-- Splitting never yields an empty segment list. -/
theorem splitChar_ne_nil (sep : Char) (l : List Char) : splitChar sep l ≠ [] := by
  cases l with
  | nil => simp [splitChar]
  | cons c rest =>
    by_cases hc : c = sep
    · simp [splitChar, hc]
    · simp only [splitChar, hc, if_false]
      cases h : splitChar sep rest <;> simp

/-- When the separator does not occur, splitting yields the single whole
segment. -/
theorem splitChar_of_rfindIdx_none (sep : Char) (l : List Char)
    (h : rfindIdx sep l = none) : splitChar sep l = [l] := by
  induction l with
  | nil => simp [splitChar]
  | cons c rest ih =>
    rw [rfindIdx] at h
    cases hr : rfindIdx sep rest with
    | some i => rw [hr] at h; exact absurd h (by simp)
    | none =>
      rw [hr] at h
      by_cases hc : c = sep
      · rw [if_pos hc] at h; exact absurd h (by simp)
      · rw [splitChar]
        simp [hc, ih hr]

/-- When the separator occurs, splitting yields at least two segments. -/
theorem splitChar_of_rfindIdx_some (sep : Char) (l : List Char) (i : Nat)
    (h : rfindIdx sep l = some i) :
    ∃ s0 s1 ss, splitChar sep l = s0 :: s1 :: ss := by
  induction l generalizing i with
  | nil => simp [rfindIdx] at h
  | cons c rest ih =>
    rw [rfindIdx] at h
    cases hr : rfindIdx sep rest with
    | some j =>
      obtain ⟨s0, s1, ss, hs⟩ := ih j hr
      by_cases hc : c = sep
      · exact ⟨[], s0, s1 :: ss, by rw [splitChar]; simp [hc, hs]⟩
      · exact ⟨c :: s0, s1, ss, by rw [splitChar]; simp [hc, hs]⟩
    | none =>
      rw [hr] at h
      by_cases hc : c = sep
      · refine ⟨[], rest, [], ?_⟩
        rw [splitChar, splitChar_of_rfindIdx_none sep rest hr]
        simp [hc]
      · rw [if_neg hc] at h; exact absurd h (by simp)

/-- The last segment produced by splitting is the suffix after the last
occurrence of the separator (the whole list when it does not occur). -/
theorem splitChar_getLast (sep : Char) (l : List Char) :
    (splitChar sep l).getLast? =
      some (match rfindIdx sep l with
            | some i => l.drop (i + 1)
            | none => l) := by
  induction l with
  | nil => simp [splitChar, rfindIdx]
  | cons c rest ih =>
    cases hr : rfindIdx sep rest with
    | none =>
      have hsp : splitChar sep rest = [rest] := splitChar_of_rfindIdx_none sep rest hr
      by_cases hc : c = sep
      · subst hc
        rw [splitChar]
        simp [hsp, rfindIdx, hr, List.getLast?_cons_cons]
      · rw [splitChar]
        simp [hc, hsp, rfindIdx, hr]
    | some i =>
      obtain ⟨s0, s1, ss, hsp⟩ := splitChar_of_rfindIdx_some sep rest i hr
      have ihv : (s0 :: s1 :: ss).getLast? = some (rest.drop (i + 1)) := by
        rw [← hsp, ih, hr]
      by_cases hc : c = sep
      · subst hc
        rw [splitChar]
        rw [List.getLast?_cons_cons] at ihv
        simp only [if_pos rfl, hsp, List.getLast?_cons_cons, ihv]
        simp [rfindIdx, hr]
        exact ihv
      · rw [splitChar]
        simp only [hc, if_false, hsp, List.getLast?_cons_cons]
        rw [List.getLast?_cons_cons] at ihv
        rw [ihv]
        simp [rfindIdx, hr, hc]

/-- The code's name derivation (last element of the split, with the whole
character list as the `unwrap_or` default) equals the spec's final path
segment. -/
theorem split_getLastD_eq_finalSegment (path : String) :
    String.mk (List.getLastD (splitChar sepChar path.toList) path.toList) =
      finalSegment path := by
  rw [List.getLastD_eq_getLast?, splitChar_getLast sepChar path.toList]
  cases hr : rfindIdx sepChar path.toList with
  | some i =>
    simp only [finalSegment]
    rw [hr]
    exact rfl
  | none =>
    simp only [finalSegment]
    rw [hr]
    exact rfl

/-- Claim C9: whenever the resolver returns a `ProcessInfo`, its `name` is
the segment of its `path` after the last backslash, and the whole `path`
when no backslash occurs. -/
theorem resolve_name_is_final_segment (os : ProcTable) (pid : Nat)
    (info : ProcessInfo) (h : get_process_info os pid = some info) :
    info.name = finalSegment info.path := by
  rw [get_process_info] at h
  cases hq : os pid with
  | none => rw [hq] at h; exact absurd h (by simp)
  | some q =>
    rw [hq] at h
    simp only [Option.some.injEq] at h
    have hname : info.name =
        String.mk (List.getLastD
          (splitChar sepChar (if q.queryOk && decide (0 < q.size) then
            q.decoded else "<Unknown>").toList)
          (if q.queryOk && decide (0 < q.size) then
            q.decoded else "<Unknown>").toList) := by
      rw [← h]
    have hpath : info.path =
        (if q.queryOk && decide (0 < q.size) then q.decoded else "<Unknown>") := by
      rw [← h]
    rw [hname, hpath, split_getLastD_eq_finalSegment]

/-- Witness for C9 at a resolver environment yielding pid 4's metadata. -/
theorem resolve_name_is_final_segment_witness :
    infoA.name = finalSegment infoA.path :=
  resolve_name_is_final_segment launchEnvA.procs 4 infoA rfl

end LibraryLink
